import Mathlib

/-!
# Verification of the Haab calendar module (`tzolkin_calendar/haab.py`)

A shallow embedding of the Haab calendar class and the helper functions it
calls.  Python integers are modelled as `ℤ`, Gregorian dates as their ordinal
day count (`ℤ`), fallible constructors as `Except String _`.

The helper module (`gregorian2haab`, `getHaabDay`, `getHaabDiff`,
`nextHaab`, `lastHaab`, `haab2gregorian`, `parseHaabName`,
`makeLookUpTable`, and the `day_names` / `day_numbers` tables) is not part
of the available sources; those definitions are modelled from the
specification, as marked in their doc comments.  The `Haab` class methods
themselves (`__init__`, the validation helpers, `fromDate`, `addDays`,
`getHaabCalendar`, …) are translated from `haab.py` directly.  The
implementations of `calculateHaabName` and `calculateHaabNumber` are also
absent, but `Haab.addDays` fixes their dataflow — each receives only its
own component and the day count — so the embedded `addDays_src` keeps them
as abstract function parameters instead of modelling them.
-/

/-- A Haab date value: day `number` and day-name index `name`.
Mirrors the Python `HaabDate(number=..., name=...)` value type. -/
structure HaabDate where
  number : ℤ
  name : ℤ
deriving Repr, DecidableEq

/-- Modelled from the spec: the fixed table of the 19 Haab month names,
`day_names` in the Python package (keys 1..19); names as listed in the
`Haab.__init__` docstring. -/
def day_names : ℕ → String
  | 1 => "Pop"
  | 2 => "Woʼ"
  | 3 => "Sip"
  | 4 => "Sotzʼ"
  | 5 => "Tzek"
  | 6 => "Xul"
  | 7 => "Yaxkʼin"
  | 8 => "Mol"
  | 9 => "Chʼen"
  | 10 => "Yax"
  | 11 => "Sakʼ"
  | 12 => "Keh"
  | 13 => "Mak"
  | 14 => "Kʼankʼin"
  | 15 => "Muwanʼ"
  | 16 => "Pax"
  | 17 => "Kʼayab"
  | 18 => "Kumkʼu"
  | 19 => "Wayebʼ"
  | _ => ""

/-- The list of valid day-name keys, `day_names.keys()` in Python. -/
def dayNameKeys : List ℕ :=
  [1, 2, 3, 4, 5, 6, 7, 8, 9, 10, 11, 12, 13, 14, 15, 16, 17, 18, 19]

/-- The list of valid day-name strings, `day_names.values()` in Python. -/
def dayNameValues : List String := dayNameKeys.map day_names

/-- A `HaabDate` lying on the 365-day Haab cycle: 18 regular months
(names 1..18) of 20 days (numbers 0..19) plus the closing month Wayebʼ
(name 19) of 5 days (numbers 0..4). -/
def HaabDate.OnCycle (d : HaabDate) : Prop :=
  (0 ≤ d.number ∧ d.number ≤ 19 ∧ 1 ≤ d.name ∧ d.name ≤ 18) ∨
    (0 ≤ d.number ∧ d.number ≤ 4 ∧ d.name = 19)

instance (d : HaabDate) : Decidable d.OnCycle := by
  unfold HaabDate.OnCycle; infer_instance

/-- Modelled from the spec (§4.1, §4.3): the Haab cycle position of a date,
the inverse of the lookup table.  Names 1..18 head the 18 regular 20-day
months; name 19 (Wayebʼ) heads the closing 5-day window at positions
360..364. -/
def haabEncode (d : HaabDate) : ℤ :=
  if d.name ≤ 18 then (d.name - 1) * 20 + d.number else 360 + d.number

/-- Modelled from the spec (§4.1): entry of the Haab lookup table at a cycle
offset, reduced modulo the cycle length 365 (`makeLookUpTable`-style decoding
of a linear offset to a structured date). -/
def haabDecode (o : ℤ) : HaabDate :=
  if o % 365 < 360 then ⟨o % 365 % 20, o % 365 / 20 + 1⟩ else ⟨o % 365 - 360, 19⟩

/-- The Haab lookup table viewed as a function on offsets, `table[offset]`. -/
def haab_lookup (o : ℤ) : HaabDate := haabDecode o

lemma haabDecode_mod (o : ℤ) : haabDecode (o % 365) = haabDecode o := by
  unfold haabDecode
  simp [Int.emod_emod_of_dvd]

lemma haabEncode_decode (o : ℤ) : haabEncode (haabDecode o) = o % 365 := by
  unfold haabEncode haabDecode
  by_cases h : o % 365 < 360
  · simp only [if_pos h]
    have h5 : o % 365 / 20 + 1 ≤ 18 := by omega
    simp only [if_pos h5]
    omega
  · simp only [if_neg h]
    rw [if_neg (by norm_num : ¬(19:ℤ) ≤ 18)]
    omega

lemma haabDecode_encode (d : HaabDate) (hd : d.OnCycle) :
    haabDecode (haabEncode d) = d := by
  obtain ⟨num, nam⟩ := d
  unfold haabEncode haabDecode
  rcases hd with ⟨h0, h1, h2, h3⟩ | ⟨h0, h1, h2⟩
  · simp only at h0 h1 h2 h3
    simp only [if_pos h3]
    have he1 : (nam - 1) * 20 + num < 360 := by nlinarith
    have hm : ((nam - 1) * 20 + num) % 365 = (nam - 1) * 20 + num := by omega
    rw [hm, if_pos (by omega : (nam - 1) * 20 + num < 360)]
    simp only [HaabDate.mk.injEq]
    constructor <;> omega
  · simp only at h0 h1 h2
    simp only [h2]
    rw [if_neg (by norm_num : ¬(19:ℤ) ≤ 18)]
    have hm : (360 + num) % 365 = 360 + num := by omega
    rw [hm, if_neg (by omega : ¬(360 + num < 360))]
    simp only [HaabDate.mk.injEq]
    exact ⟨by omega, trivial⟩

lemma haabEncode_nonneg (d : HaabDate) (hd : d.OnCycle) : 0 ≤ haabEncode d := by
  unfold haabEncode
  rcases hd with ⟨h0, h1, h2, h3⟩ | ⟨h0, h1, h2⟩
  · simp only [if_pos h3]; nlinarith
  · rw [h2, if_neg (by norm_num : ¬(19:ℤ) ≤ 18)]; omega

lemma haabEncode_lt (d : HaabDate) (hd : d.OnCycle) : haabEncode d < 365 := by
  unfold haabEncode
  rcases hd with ⟨h0, h1, h2, h3⟩ | ⟨h0, h1, h2⟩
  · simp only [if_pos h3]; nlinarith
  · rw [h2, if_neg (by norm_num : ¬(19:ℤ) ≤ 18)]; omega

lemma haabDecode_onCycle (o : ℤ) : (haabDecode o).OnCycle := by
  unfold haabDecode HaabDate.OnCycle
  by_cases h : o % 365 < 360
  · left
    simp only [if_pos h]
    refine ⟨by omega, by omega, by omega, by omega⟩
  · right
    simp only [if_neg h]
    refine ⟨by omega, by omega, by trivial⟩

/-- `Haab.addDays`, translated from the source with its two absent helpers
as parameters: `added_name = calculateHaabName(start_name=name, to_add=days)`
and `added_number = calculateHaabNumber(start_number=number, to_add=days)` —
the new name is computed from the old name and the day count alone, and the
new number from the old number and the day count alone; the components never
see each other. -/
def addDays_src (calculateHaabName calculateHaabNumber : ℤ → ℤ → ℤ)
    (d : HaabDate) (days : ℤ) : HaabDate :=
  ⟨calculateHaabNumber d.number days, calculateHaabName d.name days⟩

/-- Modelled from the spec (§4.2): `gregorian2haab` — days since the epoch,
reduced with Python-style floor modulo, resolved through the lookup table.
Gregorian dates are their ordinal day counts; the correlation epoch is a
parameter since the spec fixes none for Haab. -/
def gregorian2haab (epoch date : ℤ) : HaabDate :=
  haabDecode (date - epoch)

/-- Modelled from the spec (§4.4): `getHaabDiff` — days to travel forward
from `start` to reach `end_`, `(offset(end) - offset(start)) mod 365`. -/
def getHaabDiff (start end_ : HaabDate) : ℤ :=
  (haabEncode end_ - haabEncode start) % 365

/-- Modelled from the spec (§4.5): `nextHaab` — the first Gregorian ordinal
`≥ starting` whose Haab date is `haab`: the minimal non-negative `Δ` with
`(start_offset + Δ) mod 365 = target_offset`. -/
def nextHaab (epoch : ℤ) (haab : HaabDate) (starting : ℤ) : ℤ :=
  starting + (haabEncode haab - (starting - epoch)) % 365

/-- Modelled from the spec (§4.5): `lastHaab` — the first Gregorian ordinal
`≤ starting` whose Haab date is `haab`: the minimal non-negative backward
step `Δ` with `(start_offset - Δ) mod 365 = target_offset`. -/
def lastHaab (epoch : ℤ) (haab : HaabDate) (starting : ℤ) : ℤ :=
  starting - ((starting - epoch) - haabEncode haab) % 365

/-- Modelled from the spec (§4.5): `haab2gregorian` — the list of
`num_results` Gregorian ordinals with Haab date `haab`, stepping by ±365
days from the first hit; empty when `num_results < 1`. -/
def haab2gregorian (epoch : ℤ) (haab : HaabDate) (start num_results : ℤ)
    (forward : Bool) : List ℤ :=
  if num_results < 1 then []
  else
    (List.range num_results.toNat).map (fun k : ℕ =>
      if forward then nextHaab epoch haab start + 365 * (k : ℤ)
      else lastHaab epoch haab start - 365 * (k : ℤ))

/-- Modelled from the spec (§8.5): `getHaabDay` — the 1-based day of the
Haab year, so 0 Pop is day 1 and 4 Wayebʼ is day 365. -/
def getHaabDay (d : HaabDate) : ℤ :=
  haabEncode d + 1

/-- String form of a Haab date, `HaabDate.__repr__`: `"<number> <name>"`. -/
def haabRepr (d : HaabDate) : String :=
  toString d.number ++ " " ++ day_names d.name.toNat

/-- `Haab.getHaabCalendar`: all 365 days of the Haab year as strings, in the
order of the lookup table (`makeLookUpTable` modelled from the spec §4.1). -/
def getHaabCalendar : List String :=
  (List.range 365).map (fun o : ℕ => haabRepr (haab_lookup (o : ℤ)))

/-- `Haab.__checkDayNumber`: the day number must be a key of `day_numbers`,
i.e. in [0, 19] (table modelled from the spec). -/
def checkDayNumber (number : ℤ) : Bool :=
  decide (0 ≤ number ∧ number ≤ 19)

/-- `Haab.__checkNameNumber`: the name number must be a key of `day_names`,
i.e. in [1, 19]. -/
def checkNameNumber (name_number : ℤ) : Bool :=
  decide (1 ≤ name_number ∧ name_number ≤ 19)

/-- `Haab.__checkNameString`: the name string must be one of the values of
`day_names` (exact match). -/
def checkNameString (name_str : String) : Bool :=
  dayNameValues.contains name_str

/-- Uppercase the characters of a string, the `str.upper()` of the
comparison in `getNameNumberFromName`. -/
def upperChars (s : String) : List Char :=
  s.data.map Char.toUpper

/-- `Haab.getNameNumberFromName`: the first key of `day_names` whose value
matches `name_str` case-insensitively; `none` models the raised
`HaabException`. -/
def getNameNumberFromName (name_str : String) : Option ℕ :=
  dayNameKeys.find? (fun num => upperChars (day_names num) == upperChars name_str)

/-- `Haab.__init__`: build the held `HaabDate` from `number` and either
`name_str` (checked first, takes precedence) or `name_number`; when both are
`None` the name defaults to 1.  The day-number check runs last.  An
`Except.error` models a raised `HaabException`. -/
def Haab_init (number : ℤ) (name_str : Option String) (name_number : Option ℤ) :
    Except String HaabDate :=
  match name_str with
  | some s =>
    if checkNameString s then
      match getNameNumberFromName s with
      | some nn =>
        if checkDayNumber number then .ok ⟨number, (nn : ℤ)⟩
        else .error "invalid Haab day number"
      | none => .error "invalid Haab day name"
    else .error "invalid Haab day name"
  | none =>
    match name_number with
    | some m =>
      if checkNameNumber m then
        if checkDayNumber number then .ok ⟨number, m⟩
        else .error "invalid Haab day number"
      else .error "invalid Haab day name number"
    | none =>
      if checkDayNumber number then .ok ⟨number, 1⟩
      else .error "invalid Haab day number"

/-- `Haab.fromDate`: convert a Gregorian ordinal to its Haab date and rebuild
it through the constructor, as the Python classmethod does. -/
def Haab_fromDate (epoch date : ℤ) : Except String HaabDate :=
  Haab_init (gregorian2haab epoch date).number none (some (gregorian2haab epoch date).name)

/-- Keep only ASCII alphanumeric characters and uppercase them — the
normalisation `parseHaabName` applies to both the candidate names and the
input. -/
def normalizeName (s : String) : List Char :=
  (s.data.filter (fun c => c.isAlphanum && c.toNat < 128)).map Char.toUpper

/-- Modelled from the spec (§6, §7): the module-level `parseHaabName` —
case-insensitive match ignoring non-alphanumeric and non-ASCII characters,
returning the name number on success and the sentinel 0 when nothing
matches; it never raises. -/
def parseHaabName (name_str : String) : ℕ :=
  match dayNameKeys.find? (fun num => normalizeName (day_names num) == normalizeName name_str) with
  | some num => num
  | none => 0

/-- C1: no implementations of `calculateHaabName` and `calculateHaabNumber`
can make the per-component `Haab.addDays` of the source satisfy the claimed
law `addDays(table[i], n) = table[(i+n) mod 365]` for all offsets and day
counts.  The code computes the new day number from the old number and the
day count alone, but the 365-day table needs `4 Wayebʼ + 1 day` (offset 364)
to wrap its number from 4 to 0 while `4 Pop + 1 day` (offset 4) moves its
number from 4 to 5 — a single value `calculateHaabNumber(4, 1)` cannot be
both, so the claim fails on the code as written. -/
theorem C1_addDays_structure_unsatisfiable :
    ¬ ∃ calcName calcNumber : ℤ → ℤ → ℤ, ∀ i n : ℤ, 0 ≤ i → i < 365 →
      addDays_src calcName calcNumber (haab_lookup i) n =
        haab_lookup ((i + n) % 365) := by
  rintro ⟨calcName, calcNumber, h⟩
  have h1 := congrArg HaabDate.number (h 364 1 (by norm_num) (by norm_num))
  have h2 := congrArg HaabDate.number (h 4 1 (by norm_num) (by norm_num))
  simp only [addDays_src] at h1 h2
  rw [show (haab_lookup 364).number = 4 from by decide,
    show (haab_lookup ((364 + 1) % 365)).number = 0 from by decide] at h1
  rw [show (haab_lookup 4).number = 4 from by decide,
    show (haab_lookup ((4 + 1) % 365)).number = 5 from by decide] at h2
  omega

lemma Haab_init_none_some (n m : ℤ) :
    Haab_init n none (some m) =
      if 1 ≤ m ∧ m ≤ 19 then
        if 0 ≤ n ∧ n ≤ 19 then .ok ⟨n, m⟩
        else .error "invalid Haab day number"
      else .error "invalid Haab day name number" := by
  unfold Haab_init checkNameNumber checkDayNumber
  by_cases hm : 1 ≤ m ∧ m ≤ 19 <;> by_cases hn : 0 ≤ n ∧ n ≤ 19 <;>
    simp [hm, hn]

lemma Haab_init_none_none (n : ℤ) :
    Haab_init n none none =
      if 0 ≤ n ∧ n ≤ 19 then .ok ⟨n, 1⟩
      else .error "invalid Haab day number" := by
  unfold Haab_init checkDayNumber
  by_cases hn : 0 ≤ n ∧ n ≤ 19 <;> simp [hn]

/-- C2: the constructor rejects any day number outside [0,19] and (when no
name string is given) any name number outside [1,19] with a `HaabException`;
whenever it succeeds, the produced date carries exactly the requested
components, which are then in range — nothing is clamped. -/
theorem C2_invalid_construction (n m : ℤ) :
    (¬(0 ≤ n ∧ n ≤ 19) →
      (∃ e, Haab_init n none (some m) = .error e) ∧
        ∃ e, Haab_init n none none = .error e) ∧
    (¬(1 ≤ m ∧ m ≤ 19) → ∃ e, Haab_init n none (some m) = .error e) ∧
    (∀ hd, Haab_init n none (some m) = .ok hd →
      hd.number = n ∧ hd.name = m ∧ 0 ≤ n ∧ n ≤ 19 ∧ 1 ≤ m ∧ m ≤ 19) := by
  rw [Haab_init_none_some, Haab_init_none_none]
  refine ⟨?_, ?_, ?_⟩
  · intro h
    constructor
    · by_cases hm : 1 ≤ m ∧ m ≤ 19
      · rw [if_pos hm, if_neg h]
        exact ⟨_, rfl⟩
      · rw [if_neg hm]
        exact ⟨_, rfl⟩
    · rw [if_neg h]
      exact ⟨_, rfl⟩
  · intro h
    rw [if_neg h]
    exact ⟨_, rfl⟩
  · intro hd hok
    by_cases hm : 1 ≤ m ∧ m ≤ 19
    · rw [if_pos hm] at hok
      by_cases hn : 0 ≤ n ∧ n ≤ 19
      · rw [if_pos hn] at hok
        injection hok with h
        subst h
        exact ⟨rfl, rfl, hn.1, hn.2, hm.1, hm.2⟩
      · rw [if_neg hn] at hok
        exact Except.noConfusion hok
    · rw [if_neg hm] at hok
      exact Except.noConfusion hok

/-- C2 witness: number 20 is rejected (with and without a name number), and
name numbers 0 and 21 are rejected. -/
theorem C2_witness :
    (∃ e, Haab_init 20 none (some 3) = .error e) ∧
    (∃ e, Haab_init 20 none none = .error e) ∧
    (∃ e, Haab_init 5 none (some 0) = .error e) ∧
    (∃ e, Haab_init 5 none (some 21) = .error e) :=
  ⟨((C2_invalid_construction 20 3).1 (by norm_num)).1,
   ((C2_invalid_construction 20 3).1 (by norm_num)).2,
   (C2_invalid_construction 5 0).2.1 (by norm_num),
   (C2_invalid_construction 5 21).2.1 (by norm_num)⟩

/-- C3: `getDayDiff` lies in [0, 365), the two directions add up to a
multiple of 365, and the difference vanishes exactly on equal Haab dates. -/
theorem C3_diff_laws (a b : HaabDate) (ha : a.OnCycle) (hb : b.OnCycle) :
    (0 ≤ getHaabDiff a b ∧ getHaabDiff a b < 365) ∧
    (getHaabDiff a b + getHaabDiff b a) % 365 = 0 ∧
    (getHaabDiff a b = 0 ↔ a = b) := by
  have a1 := haabEncode_nonneg a ha
  have a2 := haabEncode_lt a ha
  have b1 := haabEncode_nonneg b hb
  have b2 := haabEncode_lt b hb
  unfold getHaabDiff
  refine ⟨⟨by omega, by omega⟩, by omega, ?_, ?_⟩
  · intro h
    have he : haabEncode a = haabEncode b := by omega
    calc a = haabDecode (haabEncode a) := (haabDecode_encode a ha).symm
    _ = haabDecode (haabEncode b) := by rw [he]
    _ = b := haabDecode_encode b hb
  · intro h
    subst h
    omega

/-- C3 witness: the diff laws evaluated at 0 Pop and 4 Wayebʼ. -/
theorem C3_witness :
    (0 ≤ getHaabDiff ⟨0, 1⟩ ⟨4, 19⟩ ∧ getHaabDiff ⟨0, 1⟩ ⟨4, 19⟩ < 365) ∧
    (getHaabDiff ⟨0, 1⟩ ⟨4, 19⟩ + getHaabDiff ⟨4, 19⟩ ⟨0, 1⟩) % 365 = 0 ∧
    (getHaabDiff ⟨0, 1⟩ ⟨4, 19⟩ = 0 ↔ (⟨0, 1⟩ : HaabDate) = ⟨4, 19⟩) :=
  C3_diff_laws ⟨0, 1⟩ ⟨4, 19⟩ (by decide) (by decide)

/-- C4: converting a Gregorian date to its Haab date succeeds (the
constructor round-trip of `fromDate` reproduces `gregorian2haab`), and
searching forward or backward from the same date for that Haab date returns
the date itself. -/
theorem C4_fromDate_roundtrip (epoch d : ℤ) :
    Haab_fromDate epoch d = Except.ok (gregorian2haab epoch d) ∧
    nextHaab epoch (gregorian2haab epoch d) d = d ∧
    lastHaab epoch (gregorian2haab epoch d) d = d := by
  refine ⟨?_, ?_, ?_⟩
  · have hc := haabDecode_onCycle (d - epoch)
    have h1 : 1 ≤ (gregorian2haab epoch d).name ∧
        (gregorian2haab epoch d).name ≤ 19 := by
      unfold gregorian2haab
      rcases hc with ⟨_, _, c1, c2⟩ | ⟨_, _, c⟩ <;> omega
    have h2 : 0 ≤ (gregorian2haab epoch d).number ∧
        (gregorian2haab epoch d).number ≤ 19 := by
      unfold gregorian2haab
      rcases hc with ⟨c1, c2, _, _⟩ | ⟨c1, c2, _⟩ <;> omega
    unfold Haab_fromDate
    rw [Haab_init_none_some, if_pos h1, if_pos h2]
  · unfold nextHaab gregorian2haab
    rw [haabEncode_decode]
    omega
  · unfold lastHaab gregorian2haab
    rw [haabEncode_decode]
    omega

/-- C5: searching backward never passes the start date, searching forward
never precedes it, and both results convert back to the searched Haab
date. -/
theorem C5_search_direction (epoch : ℤ) (h : HaabDate) (s : ℤ)
    (hc : h.OnCycle) :
    lastHaab epoch h s ≤ s ∧ s ≤ nextHaab epoch h s ∧
    gregorian2haab epoch (nextHaab epoch h s) = h ∧
    gregorian2haab epoch (lastHaab epoch h s) = h := by
  refine ⟨?_, ?_, ?_, ?_⟩
  · unfold lastHaab
    omega
  · unfold nextHaab
    omega
  · unfold gregorian2haab nextHaab
    have hx : (s + (haabEncode h - (s - epoch)) % 365 - epoch) % 365
        = haabEncode h % 365 := by omega
    rw [← haabDecode_mod, hx, haabDecode_mod]
    exact haabDecode_encode h hc
  · unfold gregorian2haab lastHaab
    have hx : (s - ((s - epoch) - haabEncode h) % 365 - epoch) % 365
        = haabEncode h % 365 := by omega
    rw [← haabDecode_mod, hx, haabDecode_mod]
    exact haabDecode_encode h hc

/-- C5 witness: the search bounds and round-trips at 4 Wayebʼ, start 1000,
epoch 0. -/
theorem C5_witness :
    lastHaab 0 ⟨4, 19⟩ 1000 ≤ 1000 ∧ 1000 ≤ nextHaab 0 ⟨4, 19⟩ 1000 ∧
    gregorian2haab 0 (nextHaab 0 ⟨4, 19⟩ 1000) = ⟨4, 19⟩ ∧
    gregorian2haab 0 (lastHaab 0 ⟨4, 19⟩ 1000) = ⟨4, 19⟩ :=
  C5_search_direction 0 ⟨4, 19⟩ 1000 (by decide)

/-- C6: the forward and backward date-list searches return exactly
`list_size` dates when `list_size ≥ 1` and the empty list when
`list_size < 1`. -/
theorem C6_list_length (epoch : ℤ) (h : HaabDate) (s c : ℤ) :
    (c < 1 → haab2gregorian epoch h s c true = [] ∧
      haab2gregorian epoch h s c false = []) ∧
    (1 ≤ c → ((haab2gregorian epoch h s c true).length : ℤ) = c ∧
      ((haab2gregorian epoch h s c false).length : ℤ) = c) := by
  unfold haab2gregorian
  constructor
  · intro hc
    rw [if_pos hc, if_pos hc]
    exact ⟨rfl, rfl⟩
  · intro hc
    rw [if_neg (by omega), if_neg (by omega)]
    simp only [List.length_map, List.length_range]
    omega

/-- C6 witness: list sizes 3 and -2, forward and backward. -/
theorem C6_witness :
    haab2gregorian 0 ⟨0, 1⟩ 100 (-2) true = [] ∧
    haab2gregorian 0 ⟨0, 1⟩ 100 (-2) false = [] ∧
    ((haab2gregorian 0 ⟨0, 1⟩ 100 3 true).length : ℤ) = 3 ∧
    ((haab2gregorian 0 ⟨0, 1⟩ 100 3 false).length : ℤ) = 3 :=
  ⟨((C6_list_length 0 ⟨0, 1⟩ 100 (-2)).1 (by norm_num)).1,
   ((C6_list_length 0 ⟨0, 1⟩ 100 (-2)).1 (by norm_num)).2,
   ((C6_list_length 0 ⟨0, 1⟩ 100 3).2 (by norm_num)).1,
   ((C6_list_length 0 ⟨0, 1⟩ 100 3).2 (by norm_num)).2⟩

/-- C7: 0 Pop is Haab-year-day 1, 4 Wayebʼ is Haab-year-day 365, and every
date on the cycle is mapped into [1, 365]. -/
theorem C7_year_day :
    getHaabDay ⟨0, 1⟩ = 1 ∧ day_names 1 = "Pop" ∧
    getHaabDay ⟨4, 19⟩ = 365 ∧ day_names 19 = "Wayebʼ" ∧
    ∀ d : HaabDate, d.OnCycle → 1 ≤ getHaabDay d ∧ getHaabDay d ≤ 365 := by
  refine ⟨by decide, rfl, by decide, rfl, ?_⟩
  intro d hd
  unfold getHaabDay
  have h1 := haabEncode_nonneg d hd
  have h2 := haabEncode_lt d hd
  omega

/-- C7 witness: the year-day bounds at 2 Sip. -/
theorem C7_witness : 1 ≤ getHaabDay ⟨2, 3⟩ ∧ getHaabDay ⟨2, 3⟩ ≤ 365 :=
  C7_year_day.2.2.2.2 ⟨2, 3⟩ (by decide)

lemma haab_lookup_inj (d : HaabDate) (hd : d.OnCycle) :
    ∃! o : ℕ, o < 365 ∧ haab_lookup (o : ℤ) = d := by
  refine ⟨(haabEncode d).toNat, ⟨?_, ?_⟩, ?_⟩
  · have := haabEncode_lt d hd
    have := haabEncode_nonneg d hd
    omega
  · unfold haab_lookup
    rw [Int.toNat_of_nonneg (haabEncode_nonneg d hd)]
    exact haabDecode_encode d hd
  · intro o ⟨ho, hlo⟩
    unfold haab_lookup at hlo
    have he : haabEncode d = (o : ℤ) % 365 := by
      rw [← hlo, haabEncode_decode]
    have : ((o : ℤ)) % 365 = (o : ℤ) := by omega
    omega

set_option maxRecDepth 10000 in
/-- C8 counterexample: the calendar list ends at "4 Wayebʼ", not "5 Wayebʼ"
— the string "5 Wayebʼ" names no day of the 365-day cycle and does not
occur in the list at all. -/
theorem C8_counterexample :
    getHaabCalendar.getLast? = some "4 Wayebʼ" ∧
    "5 Wayebʼ" ∉ getHaabCalendar := by
  decide

/-- C8 (amended): `getHaabCalendar` lists exactly 365 day strings, entry
`o` being the rendering of lookup-table entry `o`, running from "0 Pop" to
"4 Wayebʼ", and every valid (number, name) pair of the 365-day cycle is the
decoding of exactly one table offset. -/
theorem C8_calendar :
    getHaabCalendar.length = 365 ∧
    getHaabCalendar.head? = some "0 Pop" ∧
    getHaabCalendar.getLast? = some "4 Wayebʼ" ∧
    (∀ o : ℕ, o < 365 →
      getHaabCalendar[o]? = some (haabRepr (haab_lookup (o : ℤ)))) ∧
    (∀ d : HaabDate, d.OnCycle → ∃! o : ℕ, o < 365 ∧ haab_lookup (o : ℤ) = d) := by
  refine ⟨by simp [getHaabCalendar], rfl, C8_counterexample.1, ?_, haab_lookup_inj⟩
  intro o ho
  unfold getHaabCalendar
  rw [List.getElem?_map, List.getElem?_range ho]
  rfl

/-- C8 witness: the entry at offset 3 and the unique offset of 0 Pop. -/
theorem C8_witness :
    getHaabCalendar[3]? = some (haabRepr (haab_lookup ((3 : ℕ) : ℤ))) ∧
    ∃! o : ℕ, o < 365 ∧ haab_lookup (o : ℤ) = ⟨0, 1⟩ :=
  ⟨C8_calendar.2.2.2.1 3 (by norm_num),
   C8_calendar.2.2.2.2 ⟨0, 1⟩ (by decide)⟩

lemma mem_dayNameKeys {i : ℕ} (h : i ∈ dayNameKeys) : 1 ≤ i ∧ i ≤ 19 := by
  simp [dayNameKeys] at h
  omega

/-- C9: `parseHaabName` is total — it either returns the sentinel 0, in
which case no Haab day name matches the input under the
ignore-case/ignore-non-alphanumeric normalisation, or it returns a name
number in [1, 19] whose day name matches the input. -/
theorem C9_parseHaabName_total (s : String) :
    (parseHaabName s = 0 ∧
      ∀ i ∈ dayNameKeys, normalizeName (day_names i) ≠ normalizeName s) ∨
    (1 ≤ parseHaabName s ∧ parseHaabName s ≤ 19 ∧
      normalizeName (day_names (parseHaabName s)) = normalizeName s) := by
  cases hf : dayNameKeys.find?
      (fun num => normalizeName (day_names num) == normalizeName s) with
  | none =>
    left
    have h0 : parseHaabName s = 0 := by
      unfold parseHaabName
      rw [hf]
    refine ⟨h0, ?_⟩
    intro i hi
    have := List.find?_eq_none.mp hf i hi
    simpa using this
  | some num =>
    right
    have h0 : parseHaabName s = num := by
      unfold parseHaabName
      rw [hf]
    have hp := List.find?_some hf
    have hmem := List.mem_of_find?_eq_some hf
    have hb := mem_dayNameKeys hmem
    rw [h0]
    simp only [beq_iff_eq] at hp
    exact ⟨hb.1, hb.2, hp⟩

/-- C9 witness: the dichotomy evaluated on the input "  pop!! ". -/
theorem C9_witness :
    (parseHaabName "  pop!! " = 0 ∧
      ∀ i ∈ dayNameKeys,
        normalizeName (day_names i) ≠ normalizeName "  pop!! ") ∨
    (1 ≤ parseHaabName "  pop!! " ∧ parseHaabName "  pop!! " ≤ 19 ∧
      normalizeName (day_names (parseHaabName "  pop!! ")) =
        normalizeName "  pop!! ") :=
  C9_parseHaabName_total "  pop!! "

/-- C10: a supplied name string settles the name component by itself — the
constructor never even inspects `name_number` then (so an out-of-range
value like 99 cannot raise), and with neither name argument the name
defaults silently to 1, Pop. -/
theorem C10_name_precedence (n m : ℤ) (s : String) :
    Haab_init n (some s) (some m) = Haab_init n (some s) none ∧
    Haab_init 7 (some "Sip") (some m) = .ok ⟨7, 3⟩ ∧
    Haab_init 7 (some "Sip") (some 99) = .ok ⟨7, 3⟩ ∧
    Haab_init 7 none none = .ok ⟨7, 1⟩ :=
  ⟨rfl, rfl, rfl, rfl⟩
